import Mathlib

/-!
Verification development for the nghttpx ingress controller
(`pkg/controller/controller.go`).  The Go code is embedded shallowly:
lister caches become lists, Kubernetes objects become structures, and the
controller methods become pure Lean functions over those inputs.
Helpers that live in the `pkg/nghttpx` package (not part of the sources
at hand) are modelled from the specification and marked as such.
-/

namespace NghttpxLB

/-! ### Derived configuration model (`pkg/nghttpx` data types) -/

/-- Backend server entry: `nghttpx.UpstreamServer`. -/
structure UpstreamServer where
  address : String
  port : String
  protocol : String
  tls : Bool
  sni : String
  dns : Bool
  affinity : String
deriving DecidableEq, Repr

/-- One routable destination group: `nghttpx.Upstream`. -/
structure Upstream where
  name : String
  host : String
  path : String
  redirectIfNotTLS : Bool
  backends : List UpstreamServer
deriving DecidableEq, Repr

/-- A materialized certificate or key file: path plus content checksum. -/
structure ChecksumFile where
  path : String
  checksum : List Nat
deriving DecidableEq, Repr

/-- A resolved TLS credential: `nghttpx.TLSCred`.  Its identity is the
key file path, derived from the Secret identity. -/
structure TLSCred where
  key : ChecksumFile
  cert : ChecksumFile
deriving DecidableEq, Repr

/-- The configuration model handed to the proxy sink:
`nghttpx.IngressConfig`. -/
structure IngressConfig where
  tls : Bool
  defaultTLSCred : Option TLSCred
  subTLSCred : List TLSCred
  upstreams : List Upstream
deriving DecidableEq, Repr

/-- Zero-value configuration, as produced by `nghttpx.NewIngressConfig`. -/
def emptyIngressConfig : IngressConfig :=
  { tls := false, defaultTLSCred := none, subTLSCred := [], upstreams := [] }

instance : Inhabited IngressConfig := ⟨emptyIngressConfig⟩

/-- Per-service-port backend override set: `nghttpx.PortBackendConfig`. -/
structure PortBackendConfig where
  proto : String
  tls : Bool
  sni : String
  dns : Bool
  affinity : String
deriving DecidableEq, Repr

/-- Modelled from the spec: `nghttpx.DefaultPortBackendConfig` supplies
the default override set `{protocol: http/1.1}`. -/
def defaultPortBackendConfig : PortBackendConfig :=
  { proto := "http/1.1", tls := false, sni := "", dns := false, affinity := "" }

/-- Modelled from the spec: `nghttpx.FixupPortBackendConfig` coerces an
unrecognized protocol to `http/1.1` with a warning. -/
def fixupPortBackendConfig (c : PortBackendConfig) : PortBackendConfig :=
  if c.proto = "h2" ∨ c.proto = "http/1.1" then c
  else { c with proto := "http/1.1" }

/-- Modelled from the spec: `nghttpx.NewDefaultServer` is the static
placeholder backend used when the default service is unavailable. -/
def NewDefaultServer : UpstreamServer :=
  { address := "127.0.0.1", port := "8181", protocol := "http/1.1",
    tls := false, sni := "", dns := false, affinity := "" }

/-! ### Observed-state inputs (Kubernetes objects) -/

/-- Go `intstr.IntOrString`: a numeric or symbolic port reference. -/
inductive IntOrString where
  | int (n : Int)
  | str (s : String)
deriving DecidableEq, Repr

/-- Go `intstr.IntOrString.String()`. -/
def iosToString : IntOrString → String
  | .int n => toString n
  | .str s => s

/-- One declared port of a Service. -/
structure ServicePort where
  name : String
  port : Int
  targetPort : IntOrString
  protocol : String
deriving DecidableEq, Repr

/-- A Service: named/numbered ports plus a pod selector. -/
structure Service where
  ns : String
  name : String
  ports : List ServicePort
  selector : List (String × String)
deriving DecidableEq, Repr

/-- One address inside an Endpoints subset. -/
structure EndpointAddress where
  ip : String
deriving DecidableEq, Repr

/-- One port inside an Endpoints subset. -/
structure EndpointPort where
  name : String
  port : Int
  protocol : String
deriving DecidableEq, Repr

/-- One subset of an Endpoints object: addresses crossed with ports. -/
structure EndpointSubset where
  addresses : List EndpointAddress
  ports : List EndpointPort
deriving DecidableEq, Repr

/-- The live address:port sets backing a Service. -/
structure Endpoints where
  ns : String
  name : String
  subsets : List EndpointSubset
deriving DecidableEq, Repr

/-- A container port declared on a Pod (containers flattened). -/
structure ContainerPort where
  name : String
  containerPort : Int
  protocol : String
deriving DecidableEq, Repr

/-- A Pod: labels for selector matching, node placement, declared ports. -/
structure Pod where
  ns : String
  name : String
  labels : List (String × String)
  nodeName : String
  containerPorts : List ContainerPort
deriving DecidableEq, Repr

/-- Parse result of the certificate bytes held by a Secret.  The x509
decoder is external, so the embedding carries its outcome: either the
decoded subject/alternative names or a decoding failure. -/
inductive CertPayload where
  | wellFormed (names : List String)
  | malformed
deriving DecidableEq, Repr

/-- Parse result of the private-key bytes held by a Secret. -/
inductive KeyPayload where
  | wellFormed
  | malformed
deriving DecidableEq, Repr

/-- The data map of a Secret, restricted to the two well-known fields
(`tls.crt`, `tls.key`); `none` models an absent map key. -/
structure SecretData where
  cert : Option CertPayload
  key : Option KeyPayload
deriving DecidableEq, Repr

/-- A Secret resource. -/
structure Secret where
  ns : String
  name : String
  data : SecretData
deriving DecidableEq, Repr

/-- A ConfigMap resource (free-form tuning options). -/
structure ConfigMap where
  ns : String
  name : String
  data : List (String × String)
deriving DecidableEq, Repr

/-- Node address types relevant to `getPodAddress`. -/
inductive NodeAddressType where
  | externalIP
  | internalIP
  | legacyHostIP
  | other
deriving DecidableEq, Repr

/-- One status address of a Node. -/
structure NodeAddress where
  type : NodeAddressType
  address : String
deriving DecidableEq, Repr

/-- A Node: the addresses advertised in its status. -/
structure Node where
  name : String
  addresses : List NodeAddress
deriving DecidableEq, Repr

/-- One entry of `Ingress.Status.LoadBalancer.Ingress`. -/
structure LoadBalancerIngress where
  ip : String
  hostname : String
deriving DecidableEq, Repr

/-- One TLS section entry of an Ingress. -/
structure IngressTLS where
  secretName : String
deriving DecidableEq, Repr

/-- One host/path → service-port mapping of an Ingress rule. -/
structure HTTPPath where
  path : String
  svcName : String
  svcPort : IntOrString
deriving DecidableEq, Repr

/-- One rule of an Ingress; `http = none` models a rule without an HTTP
section. -/
structure IngressRule where
  host : String
  http : Option (List HTTPPath)
deriving DecidableEq, Repr

/-- A routing-rule resource (Ingress).  `ingressClass` is the value of
the class annotation, `""` when absent; `backendConfig` is the parsed
per-service-port override annotation. -/
structure Ingress where
  ns : String
  name : String
  ingressClass : String
  backendConfig : List (String × List (String × PortBackendConfig))
  tls : List IngressTLS
  rules : List IngressRule
  status : List LoadBalancerIngress
deriving DecidableEq, Repr

/-- The non-secret lister caches the Config Resolver reads. -/
structure Stores where
  svcs : List Service
  eps : List Endpoints
  pods : List Pod
deriving DecidableEq, Repr

/-- Static controller configuration (the fields of
`LoadBalancerController` set from `Config`). -/
structure LBConfig where
  defaultSvc : String
  defaultTLSSecret : String
  ingressClass : String
  ngxConfigMap : String
  allowInternalIP : Bool
deriving DecidableEq, Repr

/-- Identity of this controller's own pod. -/
structure PodInfo where
  podName : String
  podNS : String
deriving DecidableEq, Repr

/-! ### String helpers (kernel-computable forms of Go library calls) -/

/-- Go `strings.HasPrefix`, expressed on character lists. -/
def strStartsWith (s pre : String) : Bool := pre.data.isPrefixOf s.data

/-- Digit accumulator for `atoi`. -/
def parseNatDigits (acc : Nat) : List Char → Option Nat
  | [] => some acc
  | c :: cs => if c.isDigit then parseNatDigits (acc * 10 + (c.toNat - 48)) cs else none

/-- Go `strconv.Atoi`: optional sign, then at least one digit. -/
def atoi (s : String) : Option Int :=
  match s.data with
  | [] => none
  | '-' :: cs =>
    match cs with
    | [] => none
    | _ => (parseNatDigits 0 cs).map (fun n => -(n : Int))
  | '+' :: cs =>
    match cs with
    | [] => none
    | _ => (parseNatDigits 0 cs).map (fun n => (n : Int))
  | cs => (parseNatDigits 0 cs).map (fun n => (n : Int))

/-! ### Lister lookups -/

/-- Namespace/name key of an object, as `fmt.Sprintf("%v/%v", ns, name)`. -/
def nsNameKey (ns name : String) : String := ns ++ "/" ++ name

/-- Service lister `GetByKey`. -/
def svcByKey (svcs : List Service) (key : String) : Option Service :=
  svcs.find? (fun s => nsNameKey s.ns s.name == key)

/-- Secret lister `GetByKey`. -/
def secretByKey (secrets : List Secret) (key : String) : Option Secret :=
  secrets.find? (fun s => nsNameKey s.ns s.name == key)

/-- Endpoints lister `GetServiceEndpoints`: the Endpoints object sharing
the Service's namespace and name. -/
def endpointsOfService (eps : List Endpoints) (svc : Service) : Option Endpoints :=
  eps.find? (fun e => e.ns == svc.ns && e.name == svc.name)

/-- Label-selector semantics: every selector pair must appear in the
labels; the empty selector matches everything. -/
def selectorMatches (sel : List (String × String)) (lbls : List (String × String)) : Bool :=
  sel.all (fun kv => lbls.lookup kv.1 == some kv.2)

/-- `validateIngressClass`: the class annotation must be empty or equal
to the configured class. -/
def validateIngressClass (cfg : LBConfig) (ing : Ingress) : Bool :=
  ing.ingressClass == "" || ing.ingressClass == cfg.ingressClass

/-! ### TLS credential resolution -/

/-- Modelled from the spec: `nghttpx.CommonNames` (package `nghttpx`,
not among the sources) decodes the certificate and requires at least one
subject/alternative name. -/
def commonNames : CertPayload → Except String (List String)
  | .wellFormed names => if names.isEmpty then .error "empty CommonName" else .ok names
  | .malformed => .error "failed to parse certificate"

/-- Modelled from the spec: `nghttpx.CheckPrivateKey` (package
`nghttpx`, not among the sources) requires a well-formed key. -/
def checkPrivateKey : KeyPayload → Except String Unit
  | .wellFormed => .ok ()
  | .malformed => .error "invalid private key"

/-- Modelled from the spec: `nghttpx.TLSCredPrefix` derives the stable
credential identity from the Secret's namespace and name. -/
def tlsCredIdent (s : Secret) : String := s.ns ++ "_" ++ s.name

/-- Modelled from the spec: `nghttpx.CreateTLSCred` materializes key and
certificate files under the identity-stable prefix. -/
def createTLSCred (pfx : String) (_c : CertPayload) (_k : KeyPayload) : TLSCred :=
  { key := { path := pfx ++ ".key", checksum := [] },
    cert := { path := pfx ++ ".crt", checksum := [] } }

/-- `createTLSCredFromSecret`: extract the well-known fields, validate
certificate and key, then materialize the credential. -/
def createTLSCredFromSecret (s : Secret) : Except String TLSCred :=
  match s.data.cert with
  | none => .error ("Secret " ++ nsNameKey s.ns s.name ++ " has no certificate")
  | some cert =>
    match s.data.key with
    | none => .error ("Secret " ++ nsNameKey s.ns s.name ++ " has no private key")
    | some key =>
      match commonNames cert with
      | .error e => .error ("No valid TLS certificate found in Secret " ++ nsNameKey s.ns s.name ++ ": " ++ e)
      | .ok _ =>
        match checkPrivateKey key with
        | .error e => .error ("No valid TLS private key found in Secret " ++ nsNameKey s.ns s.name ++ ": " ++ e)
        | .ok _ => .ok (createTLSCred (tlsCredIdent s) cert key)

/-- `getTLSCredFromSecret`: look the Secret up by key and resolve it. -/
def getTLSCredFromSecret (secrets : List Secret) (key : String) : Except String TLSCred :=
  match secretByKey secrets key with
  | none => .error ("Secret " ++ key ++ " has been deleted")
  | some s => createTLSCredFromSecret s

/-- Loop body of `getTLSCredFromIngress` over the TLS section entries;
any failure aborts the whole Ingress's TLS resolution. -/
def tlsCredsOfEntries (secrets : List Secret) (ns : String) :
    List IngressTLS → Except String (List TLSCred)
  | [] => .ok []
  | t :: rest =>
    match secretByKey secrets (nsNameKey ns t.secretName) with
    | none => .error ("Secret " ++ nsNameKey ns t.secretName ++ " has been deleted")
    | some s =>
      match createTLSCredFromSecret s with
      | .error e => .error e
      | .ok cred =>
        match tlsCredsOfEntries secrets ns rest with
        | .error e => .error e
        | .ok creds => .ok (cred :: creds)

/-- `getTLSCredFromIngress`: resolve every Secret named in the Ingress's
TLS section. -/
def getTLSCredFromIngress (secrets : List Secret) (ing : Ingress) : Except String (List TLSCred) :=
  tlsCredsOfEntries secrets ing.ns ing.tls

/-! ### Endpoint resolution -/

/-- Pod-side step of `podutil.FindPort` (Kubernetes library): a numeric
target port is returned as is; a symbolic one is looked up among the
pod's container ports by name and protocol. -/
def findPort (pod : Pod) (sp : ServicePort) : Except String Int :=
  match sp.targetPort with
  | .int n => .ok n
  | .str s =>
    match pod.containerPorts.find? (fun cp => cp.name == s && cp.protocol == sp.protocol) with
    | some cp => .ok cp.containerPort
    | none => .error ("no suitable port for manifest: " ++ s)

/-- `getNamedPortFromPod`: resolve a symbolic target port through the
first selector-matched Pod in the Service's namespace. -/
def getNamedPortFromPod (pods : List Pod) (svc : Service) (sp : ServicePort) : Except String Int :=
  match (pods.filter (fun p => p.ns == svc.ns && selectorMatches svc.selector p.labels)) with
  | [] => .error ("No Pods available for Service " ++ nsNameKey svc.ns svc.name)
  | pod :: _ =>
    match findPort pod sp with
    | .error e => .error ("Failed to find port: " ++ e)
    | .ok n => .ok n

/-- Outcome of inspecting one endpoint port inside `getEndpoints`:
either break out of the subset's port loop, or the computed
`targetPort` value (0 meaning "no match, skip"). -/
inductive EpPortResult where
  | brk
  | target (t : Int)
deriving DecidableEq, Repr

/-- The `switch servicePort.TargetPort.Type` body of `getEndpoints` for
one endpoint port. -/
def epPortTarget (pods : List Pod) (svc : Service) (sp : ServicePort)
    (q : EndpointPort) : EpPortResult :=
  match sp.targetPort with
  | .int n => .target (if q.port == n then n else 0)
  | .str sv =>
    if sv == "" then .brk
    else
      match atoi sv with
      | some p => .target (if q.port == p then p else 0)
      | none =>
        match getNamedPortFromPod pods svc sp with
        | .error _ => .target 0
        | .ok p => .target (if q.port == p then p else 0)

/-- Backend entry built for one endpoint address. -/
def mkUpstreamServer (pbc : PortBackendConfig) (t : Int) (a : EndpointAddress) : UpstreamServer :=
  { address := a.ip, port := toString t, protocol := pbc.proto,
    tls := pbc.tls, sni := pbc.sni, dns := pbc.dns, affinity := pbc.affinity }

/-- Port loop of `getEndpoints` within one subset: skip ports of the
wrong protocol, skip unmatched target ports, emit one server per
address on a match. -/
def subsetServers (pods : List Pod) (svc : Service) (sp : ServicePort)
    (proto : String) (pbc : PortBackendConfig) (addrs : List EndpointAddress) :
    List EndpointPort → List UpstreamServer
  | [] => []
  | q :: rest =>
    if q.protocol == proto then
      match epPortTarget pods svc sp q with
      | .brk => []
      | .target t =>
        if t == 0 then subsetServers pods svc sp proto pbc addrs rest
        else addrs.map (mkUpstreamServer pbc t) ++ subsetServers pods svc sp proto pbc addrs rest
    else subsetServers pods svc sp proto pbc addrs rest

/-- `getEndpoints`: the `<address>:<port>` servers backing a
service/target-port combination. -/
def getEndpoints (eps : List Endpoints) (pods : List Pod) (svc : Service)
    (sp : ServicePort) (proto : String) (pbc : PortBackendConfig) : List UpstreamServer :=
  match endpointsOfService eps svc with
  | none => []
  | some ep => (ep.subsets.map (fun ss => subsetServers pods svc sp proto pbc ss.addresses ss.ports)).flatten

/-! ### Default upstream -/

/-- Backends of the synthesized default upstream: the default service's
endpoints, or the static placeholder when the service or its endpoints
are unavailable.  (A Service always carries at least one declared port;
the empty-ports case is vacuous for validated inputs.) -/
def defaultBackends (cfg : LBConfig) (str : Stores) : List UpstreamServer :=
  match svcByKey str.svcs cfg.defaultSvc with
  | none => [NewDefaultServer]
  | some svc =>
    match svc.ports with
    | [] => [NewDefaultServer]
    | sp :: _ =>
      let eps := getEndpoints str.eps str.pods svc sp "TCP" defaultPortBackendConfig
      if eps.isEmpty then [NewDefaultServer] else eps

/-- `getDefaultUpstream`: the fallback upstream named after the default
backend service; host and path stay at their zero values. -/
def getDefaultUpstream (cfg : LBConfig) (str : Stores) : Upstream :=
  { name := cfg.defaultSvc, host := "", path := "",
    redirectIfNotTLS := cfg.defaultTLSSecret != "",
    backends := defaultBackends cfg str }

/-! ### Per-ingress upstream construction -/

/-- Path normalization: empty becomes `/`; a path not starting with `/`
is rejected (skipped). -/
def normalizePath (p : String) : Option String :=
  if p = "" then some "/"
  else if strStartsWith p "/" then some p
  else none

/-- Structural service-port match: numeric port, string target-port, or
port name equals the backend port reference. -/
def portMatches (bp : String) (p : ServicePort) : Bool :=
  toString p.port == bp || iosToString p.targetPort == bp || p.name == bp

/-- Override set chosen for a matched port: the annotation entry fixed
up, or the defaults. -/
def pbcFor (svcBcfg : List (String × PortBackendConfig)) (bp : String) : PortBackendConfig :=
  match svcBcfg.lookup bp with
  | some c => fixupPortBackendConfig c
  | none => defaultPortBackendConfig

/-- The `for i := range svc.Spec.Ports` loop: take the first structural
match, resolve its endpoints, and stop. -/
def scanPorts (eps : List Endpoints) (pods : List Pod) (svc : Service)
    (svcBcfg : List (String × PortBackendConfig)) (bp : String) :
    List ServicePort → List UpstreamServer
  | [] => []
  | p :: rest =>
    if portMatches bp p then getEndpoints eps pods svc p "TCP" (pbcFor svcBcfg bp)
    else scanPorts eps pods svc svcBcfg bp rest

/-- Per-path body of `getUpstreamServers`: normalize the path, look up
the backend service, resolve its port and endpoints; a path that
contributes zero backends is skipped (`none`). -/
def pathUpstream (cfg : LBConfig) (str : Stores) (ing : Ingress)
    (requireTLS : Bool) (host : String) (p : HTTPPath) : Option Upstream :=
  match normalizePath p.path with
  | none => none
  | some npath =>
    match svcByKey str.svcs (nsNameKey ing.ns p.svcName) with
    | none => none
    | some svc =>
      let bp := iosToString p.svcPort
      let svcBcfg := (ing.backendConfig.lookup p.svcName).getD []
      let backends := scanPorts str.eps str.pods svc svcBcfg bp svc.ports
      if backends.isEmpty then none
      else
        some { name := ing.ns ++ "/" ++ p.svcName ++ "," ++ bp ++ ";" ++ host ++ npath,
               host := host, path := npath,
               redirectIfNotTLS := requireTLS || cfg.defaultTLSSecret != "",
               backends := backends }

/-- Upstreams contributed by one rule of an Ingress. -/
def ruleUpstreamList (cfg : LBConfig) (str : Stores) (ing : Ingress)
    (requireTLS : Bool) (rule : IngressRule) : List Upstream :=
  match rule.http with
  | none => []
  | some paths => paths.filterMap (pathUpstream cfg str ing requireTLS rule.host)

/-- Upstreams contributed by all rules of an Ingress. -/
def ingUpstreams (cfg : LBConfig) (str : Stores) (ing : Ingress)
    (requireTLS : Bool) : List Upstream :=
  (ing.rules.map (ruleUpstreamList cfg str ing requireTLS)).flatten

/-- Per-ingress body of `getUpstreamServers`: class filtering, TLS
resolution (whose failure drops the whole Ingress), then the rule
loop.  Returns the contributed upstreams and TLS credentials. -/
def ingressContribution (cfg : LBConfig) (str : Stores) (secrets : List Secret)
    (ing : Ingress) : List Upstream × List TLSCred :=
  if validateIngressClass cfg ing then
    match getTLSCredFromIngress secrets ing with
    | .error _ => ([], [])
    | .ok ingPems => (ingUpstreams cfg str ing (!ingPems.isEmpty), ingPems)
  else ([], [])

/-- All rule-contributed upstreams, in ingress order. -/
def ruleUpstreams (cfg : LBConfig) (str : Stores) (secrets : List Secret)
    (ings : List Ingress) : List Upstream :=
  (ings.map (fun ing => (ingressContribution cfg str secrets ing).1)).flatten

/-- All rule-contributed TLS credentials, in ingress order. -/
def collectPems (cfg : LBConfig) (str : Stores) (secrets : List Secret)
    (ings : List Ingress) : List TLSCred :=
  (ings.map (fun ing => (ingressContribution cfg str secrets ing).2)).flatten

/-! ### Sorting and deduplication -/

/-- Lexicographic string comparison (Go `<` on strings), expressed on
the character lists. -/
def strLt (a b : String) : Prop := a.data < b.data

/-- The non-strict companion of `strLt`. -/
def strLe (a b : String) : Prop := a.data ≤ b.data

instance : DecidableRel strLt := fun a b => inferInstanceAs (Decidable (a.data < b.data))

instance : DecidableRel strLe := fun a b => inferInstanceAs (Decidable (a.data ≤ b.data))

theorem strLe_total (a b : String) : strLe a b ∨ strLe b a := le_total a.data b.data

theorem strLe_trans {a b c : String} (h : strLe a b) (h' : strLe b c) : strLe a c :=
  le_trans h h'

theorem strLt_trans {a b c : String} (h : strLt a b) (h' : strLt b c) : strLt a c :=
  lt_trans h h'

theorem strLt_of_strLe_of_ne {a b : String} (h : strLe a b) (hne : a ≠ b) : strLt a b :=
  lt_of_le_of_ne h (fun hd => hne (String.ext hd))

theorem strLe_of_strLt {a b : String} (h : strLt a b) : strLe a b := le_of_lt h

theorem strLt_ne {a b : String} (h : strLt a b) : a ≠ b :=
  fun he => absurd (he ▸ h) (lt_irrefl _)

/-- Order on upstreams used by the final sort: by name. -/
def upsLe (u v : Upstream) : Prop := strLe u.name v.name

instance : DecidableRel upsLe := fun u v => inferInstanceAs (Decidable (strLe u.name v.name))

instance : IsTotal Upstream upsLe := ⟨fun u v => strLe_total u.name v.name⟩

instance : IsTrans Upstream upsLe := ⟨fun _ _ _ h h' => strLe_trans h h'⟩

/-- Dedup key of a backend entry: the (address, port) pair. -/
def serverKey (s : UpstreamServer) : String × String := (s.address, s.port)

/-- Order on backend entries used by the final sort: lexicographic on
(address, port), as in the Go comparator. -/
def serverLe (a b : UpstreamServer) : Prop :=
  strLt a.address b.address ∨ (a.address = b.address ∧ strLe a.port b.port)

/-- Strict version of `serverLe`. -/
def serverLt (a b : UpstreamServer) : Prop :=
  strLt a.address b.address ∨ (a.address = b.address ∧ strLt a.port b.port)

instance : DecidableRel serverLe := fun a b =>
  inferInstanceAs (Decidable (strLt a.address b.address ∨ (a.address = b.address ∧ strLe a.port b.port)))

instance : DecidableRel serverLt := fun a b =>
  inferInstanceAs (Decidable (strLt a.address b.address ∨ (a.address = b.address ∧ strLt a.port b.port)))

instance : IsTotal UpstreamServer serverLe := by
  constructor
  intro a b
  rcases lt_trichotomy a.address.data b.address.data with h | h | h
  · exact Or.inl (Or.inl h)
  · rcases strLe_total a.port b.port with h' | h'
    · exact Or.inl (Or.inr ⟨String.ext h, h'⟩)
    · exact Or.inr (Or.inr ⟨(String.ext h).symm, h'⟩)
  · exact Or.inr (Or.inl h)

instance : IsTrans UpstreamServer serverLe := by
  constructor
  rintro a b c (h | ⟨he, hp⟩) (h' | ⟨he', hp'⟩)
  · exact Or.inl (strLt_trans h h')
  · exact Or.inl (he' ▸ h)
  · exact Or.inl (he ▸ h')
  · exact Or.inr ⟨he.trans he', strLe_trans hp hp'⟩

instance : IsTrans UpstreamServer serverLt := by
  constructor
  rintro a b c (h | ⟨he, hp⟩) (h' | ⟨he', hp'⟩)
  · exact Or.inl (strLt_trans h h')
  · exact Or.inl (he' ▸ h)
  · exact Or.inl (he ▸ h')
  · exact Or.inr ⟨he.trans he', strLt_trans hp hp'⟩

theorem serverLt_of_serverLe_of_key_ne {a b : UpstreamServer}
    (h : serverLe a b) (hne : serverKey a ≠ serverKey b) : serverLt a b := by
  rcases h with h | ⟨he, hp⟩
  · exact Or.inl h
  · refine Or.inr ⟨he, strLt_of_strLe_of_ne hp (fun hp' => hne ?_)⟩
    simp [serverKey, he, hp']

theorem serverKey_ne_of_serverLt {a b : UpstreamServer}
    (h : serverLt a b) : serverKey a ≠ serverKey b := by
  rcases h with h | ⟨he, hp⟩
  · intro hk
    exact strLt_ne h (congrArg Prod.fst hk)
  · intro hk
    exact strLt_ne hp (congrArg Prod.snd hk)

/-- Order on TLS credentials used by the final sort: by identity. -/
def pemLe (a b : TLSCred) : Prop := strLe a.key.path b.key.path

/-- Strict version of `pemLe`. -/
def pemLt (a b : TLSCred) : Prop := strLt a.key.path b.key.path

instance : DecidableRel pemLe := fun a b => inferInstanceAs (Decidable (strLe a.key.path b.key.path))

instance : DecidableRel pemLt := fun a b => inferInstanceAs (Decidable (strLt a.key.path b.key.path))

instance : IsTotal TLSCred pemLe := ⟨fun a b => strLe_total a.key.path b.key.path⟩

instance : IsTrans TLSCred pemLe := ⟨fun _ _ _ h h' => strLe_trans h h'⟩

instance : IsTrans TLSCred pemLt := ⟨fun _ _ _ h h' => strLt_trans h h'⟩

/-- Adjacent deduplication by key, inner loop: entries equal to the
last kept entry are dropped. -/
def dedupAdjAux {α β : Type} (key : α → β) [DecidableEq β] (last : α) :
    List α → List α
  | [] => []
  | x :: xs =>
    if key x = key last then dedupAdjAux key last xs
    else x :: dedupAdjAux key x xs

/-- Adjacent deduplication by key: the first entry is always kept. -/
def dedupAdj {α β : Type} (key : α → β) [DecidableEq β] : List α → List α
  | [] => []
  | x :: xs => x :: dedupAdjAux key x xs

/-- The in-place `uniqBackends` loop of `getUpstreamServers`: adjacent
deduplication of backends by (address, port).  (On an empty list the Go
code would index out of range; every emitted upstream is non-empty.) -/
def dedupBackends (l : List UpstreamServer) : List UpstreamServer :=
  dedupAdj serverKey l

/-- Modelled from the spec: `nghttpx.RemoveDuplicatePems` (package
`nghttpx`, not among the sources) deduplicates the sorted credential
list by identity. -/
def removeDuplicatePems (l : List TLSCred) : List TLSCred :=
  dedupAdj (fun c => c.key.path) l

/-- The removal loop for the default credential: drop the first entry
sharing the default credential's identity. -/
def removeDefaultPem (p : String) : List TLSCred → List TLSCred
  | [] => []
  | c :: rest => if c.key.path == p then rest else c :: removeDefaultPem p rest

/-! ### Assembly of the configuration model -/

/-- Head of `getUpstreamServers`: resolve the configured default TLS
Secret; its failure aborts the whole pass. -/
def defaultTLSStep (cfg : LBConfig) (secrets : List Secret) :
    Except String (Bool × Option TLSCred) :=
  if cfg.defaultTLSSecret == "" then .ok (false, none)
  else
    match getTLSCredFromSecret secrets cfg.defaultTLSSecret with
    | .error e => .error e
    | .ok cred => .ok (true, some cred)

/-- TLS finalization of `getUpstreamServers`: sort and deduplicate the
credentials, then either exclude the configured default from the sub
list or promote the first credential to default. -/
def finalizeTLS (tls0 : Bool) (defCred : Option TLSCred) (pems : List TLSCred) :
    Bool × Option TLSCred × List TLSCred :=
  let sorted := removeDuplicatePems (List.insertionSort pemLe pems)
  match defCred with
  | some cred => (tls0, some cred, removeDefaultPem cred.key.path sorted)
  | none =>
    match sorted with
    | [] => (tls0, none, [])
    | p :: rest => (true, some p, rest)

/-- The `defaultUpstreamFound` test of `getUpstreamServers`. -/
def isDefaultUpstream (u : Upstream) : Bool :=
  u.host == "" && (u.path == "" || u.path == "/")

/-- Append the synthesized default upstream when no rule produced one. -/
def withDefault (cfg : LBConfig) (str : Stores) (ups : List Upstream) : List Upstream :=
  if ups.any isDefaultUpstream then ups else ups ++ [getDefaultUpstream cfg str]

/-- Per-upstream backend fixup: sort by (address, port), then remove
adjacent duplicates. -/
def fixupBackends (u : Upstream) : Upstream :=
  { u with backends := dedupBackends (List.insertionSort serverLe u.backends) }

/-- `getUpstreamServers`: the Config Resolver.  Builds the whole
configuration model from the rule set and the observed-state caches. -/
def getUpstreamServers (cfg : LBConfig) (str : Stores) (secrets : List Secret)
    (ings : List Ingress) : Except String IngressConfig :=
  match defaultTLSStep cfg secrets with
  | .error e => .error e
  | .ok (tls0, defCred0) =>
    let ups := ruleUpstreams cfg str secrets ings
    let pems := collectPems cfg str secrets ings
    let (tlsOn, defCred, subs) := finalizeTLS tls0 defCred0 pems
    .ok { tls := tlsOn, defaultTLSCred := defCred, subTLSCred := subs,
          upstreams := (List.insertionSort upsLe (withDefault cfg str ups)).map fixupBackends }

/-! ### Coalescing work queue, sync handler -/

/-- The single queue key, `syncKey = "ingress"`. -/
def syncKey : String := "ingress"

/-- The deduplicating work queue: `workqueue.Interface.Add` ignores a
key already pending. -/
def enqueueKey (queue : List String) (key : String) : List String :=
  if key ∈ queue then queue else queue ++ [key]

/-- `enqueue`: every notification handler adds the single sync key. -/
def enqueue (queue : List String) (key : String) : List String :=
  enqueueKey queue key

/-- `retryOrForget`: re-add the key only when asked to requeue. -/
def retryOrForget (queue : List String) (key : String) (requeue : Bool) : List String :=
  if requeue then enqueueKey queue key else queue

/-- Outcome of the sink's `CheckAndReload` call, an external effect. -/
inductive ReloadResult where
  | reloaded
  | notReloaded
  | failed (msg : String)
deriving DecidableEq, Repr

/-- A full observed-state snapshot, as read by `sync` through the
lister caches. -/
structure Snapshot where
  ings : List Ingress
  stores : Stores
  secrets : List Secret
  cms : List ConfigMap
deriving DecidableEq, Repr

/-- `getConfigMap`: empty key or deleted ConfigMap yield the empty
ConfigMap, never an error. -/
def getConfigMap (cms : List ConfigMap) (cmKey : String) : Except String ConfigMap :=
  if cmKey == "" then .ok { ns := "", name := "", data := [] }
  else
    match cms.find? (fun c => nsNameKey c.ns c.name == cmKey) with
    | none => .ok { ns := "", name := "", data := [] }
    | some c => .ok c

/-- The `sync` handler.  `retry` is initialized to `false` and never
reassigned anywhere in the function body, and the deferred
`retryOrForget(key, retry)` receives it; the second component is that
flag.  The sink outcome is an input, being an external effect. -/
def sync (cfg : LBConfig) (st : Snapshot) (reload : ReloadResult) :
    Except String Unit × Bool :=
  let retry := false
  match getUpstreamServers cfg st.stores st.secrets st.ings with
  | .error e => (.error e, retry)
  | .ok _ =>
    match getConfigMap st.cms cfg.ngxConfigMap with
    | .error e => (.error e, retry)
    | .ok _ =>
      match reload with
      | .failed msg => (.error msg, retry)
      | _ => (.ok (), retry)

/-- One worker iteration after `Get` returned `key`: run `sync`, then
the deferred `retryOrForget` decides whether the key re-enters the
queue (the queue shown is the queue after `Get` removed the key). -/
def workerStep (cfg : LBConfig) (st : Snapshot) (reload : ReloadResult)
    (queue : List String) (key : String) : List String :=
  retryOrForget queue key (sync cfg st reload).2

/-! ### Reference index predicates and notification handlers -/

/-- `endpointsReferenced`: the Endpoints object backs the default
service or the target service of some in-scope rule path in its
namespace. -/
def endpointsReferenced (cfg : LBConfig) (ings : List Ingress) (ep : Endpoints) : Bool :=
  nsNameKey ep.ns ep.name == cfg.defaultSvc ||
    (ings.filter (fun i => i.ns == ep.ns)).any (fun ing =>
      validateIngressClass cfg ing &&
        ing.rules.any (fun rule =>
          match rule.http with
          | none => false
          | some paths => paths.any (fun p => p.svcName == ep.name)))

/-- `secretReferenced`: the Secret is the configured default TLS Secret
or named by the TLS section of an in-scope rule in its namespace. -/
def secretReferenced (cfg : LBConfig) (ings : List Ingress) (ns name : String) : Bool :=
  cfg.defaultTLSSecret == nsNameKey ns name ||
    (ings.filter (fun i => i.ns == ns)).any (fun ing =>
      validateIngressClass cfg ing && ing.tls.any (fun t => t.secretName == name))

/-- `podReferenced`: the Pod matches the default service's selector or
the selector of a service targeted by an in-scope rule path in its
namespace. -/
def podReferenced (cfg : LBConfig) (str : Stores) (ings : List Ingress) (pod : Pod) : Bool :=
  (match svcByKey str.svcs cfg.defaultSvc with
   | some svc => selectorMatches svc.selector pod.labels
   | none => false) ||
    (ings.filter (fun i => i.ns == pod.ns)).any (fun ing =>
      validateIngressClass cfg ing &&
        ing.rules.any (fun rule =>
          match rule.http with
          | none => false
          | some paths =>
            paths.any (fun p =>
              match svcByKey str.svcs (nsNameKey pod.ns p.svcName) with
              | some svc => selectorMatches svc.selector pod.labels
              | none => false)))

/-- `updateEndpointsNotification`: deeply equal old/new objects return
immediately; otherwise enqueue if either is referenced. -/
def updateEndpointsNotification (cfg : LBConfig) (ings : List Ingress)
    (queue : List String) (old cur : Endpoints) : List String :=
  if old = cur then queue
  else if !endpointsReferenced cfg ings old && !endpointsReferenced cfg ings cur then queue
  else enqueue queue syncKey

/-- `updateSecretNotification`: deeply equal old/new objects return
immediately; otherwise enqueue if either is referenced. -/
def updateSecretNotification (cfg : LBConfig) (ings : List Ingress)
    (queue : List String) (old cur : Secret) : List String :=
  if old = cur then queue
  else if !secretReferenced cfg ings old.ns old.name &&
          !secretReferenced cfg ings cur.ns cur.name then queue
  else enqueue queue syncKey

/-- `updateConfigMapNotification`: deeply equal old/new objects return
immediately; otherwise enqueue if the new object is the configured
tuning ConfigMap. -/
def updateConfigMapNotification (cfg : LBConfig)
    (queue : List String) (old cur : ConfigMap) : List String :=
  if old = cur then queue
  else if nsNameKey cur.ns cur.name != cfg.ngxConfigMap then queue
  else enqueue queue syncKey

/-- `updatePodNotification`: deeply equal old/new objects return
immediately; otherwise enqueue if either is referenced. -/
def updatePodNotification (cfg : LBConfig) (str : Stores) (ings : List Ingress)
    (queue : List String) (old cur : Pod) : List String :=
  if old = cur then queue
  else if !podReferenced cfg str ings old && !podReferenced cfg str ings cur then queue
  else enqueue queue syncKey

/-! ### Status reconciler -/

/-- `getThisPod`: this controller's own pod from the lister. -/
def getThisPod (pods : List Pod) (pi : PodInfo) : Except String Pod :=
  match pods.find? (fun p => p.ns == pi.podNS && p.name == pi.podName) with
  | some p => .ok p
  | none => .error ("Could not get Pod " ++ nsNameKey pi.podNS pi.podName)

/-- Address-scan loop of `getPodAddress` over the node's addresses: an
external IP wins immediately; an internal (if allowed) or legacy host
address is remembered but can still be overridden. -/
def podAddressScan (allowInternalIP : Bool) (acc : String) :
    List NodeAddress → String
  | [] => acc
  | a :: rest =>
    if a.type = .externalIP then
      if a.address = "" then podAddressScan allowInternalIP acc rest else a.address
    else if acc = "" ∧ ((allowInternalIP ∧ a.type = .internalIP) ∨ a.type = .legacyHostIP) then
      podAddressScan allowInternalIP a.address rest
    else podAddressScan allowInternalIP acc rest

/-- `getPodAddress`: resolve the external address of the node hosting a
pod; prefer an external IP, error when nothing is found. -/
def getPodAddress (allowInternalIP : Bool) (nodes : List Node) (pod : Pod) :
    Except String String :=
  match nodes.find? (fun n => n.name == pod.nodeName) with
  | none => .error ("Node " ++ pod.nodeName ++ " has been deleted")
  | some node =>
    let ext := podAddressScan allowInternalIP "" node.addresses
    if ext = "" then .error ("Node " ++ node.name ++ " has no external IP")
    else .ok ext

/-- Whether a status entry carries the given address (as IP or
hostname). -/
def lbIngressMatches (e : LoadBalancerIngress) (addr : String) : Bool :=
  e.ip == addr || e.hostname == addr

/-- Modelled from the spec: the list helper
`removeAddressFromLoadBalancerIngress` (utils.go, not among the
sources) removes exactly the entries carrying the given address. -/
def removeAddrFromLBIngressList (lbIngs : List LoadBalancerIngress) (addr : String) :
    List LoadBalancerIngress :=
  lbIngs.filter (fun e => !lbIngressMatches e addr)

/-- Per-ingress body of the shutdown pass: an empty status is left
alone, otherwise the controller's own address is removed (when the
removal changes nothing, no update is written and the status stays
as it was, which is the same list). -/
def shutdownIngressStatus (addr : String) (ing : Ingress) : List LoadBalancerIngress :=
  if ing.status.isEmpty then ing.status
  else removeAddrFromLBIngressList ing.status addr

/-- The method `removeAddressFromLoadBalancerIngress` of the
controller: rediscover this pod's own address, then strip it from the
status of every in-scope Ingress.  Yields each in-scope Ingress paired
with its new status list. -/
def removeAddressShutdownPass (cfg : LBConfig) (pods : List Pod) (nodes : List Node)
    (pi : PodInfo) (ings : List Ingress) :
    Except String (List (Ingress × List LoadBalancerIngress)) :=
  match getThisPod pods pi with
  | .error e => .error ("Could not remove address from LoadBalancerIngress: " ++ e)
  | .ok pod =>
    match getPodAddress cfg.allowInternalIP nodes pod with
    | .error e => .error ("Could not remove address from LoadBalancerIngress: " ++ e)
    | .ok addr =>
      .ok ((ings.filter (validateIngressClass cfg)).map
        (fun ing => (ing, shutdownIngressStatus addr ing)))

/-! ### Concrete fixtures used by witnesses and counterexamples -/

/-- Controller configuration without a default TLS Secret. -/
def cfgEx : LBConfig :=
  { defaultSvc := "kube-system/default-backend", defaultTLSSecret := "",
    ingressClass := "nghttpx", ngxConfigMap := "", allowInternalIP := false }

/-- Controller configuration with a default TLS Secret configured. -/
def cfgTLSEx : LBConfig := { cfgEx with defaultTLSSecret := "default/tls" }

/-- A backend Service with one numeric port. -/
def svcWeb : Service :=
  { ns := "default", name := "web",
    ports := [{ name := "http", port := 80, targetPort := .int 80, protocol := "TCP" }],
    selector := [("app", "web")] }

/-- Live endpoints for `svcWeb`. -/
def epsWeb : Endpoints :=
  { ns := "default", name := "web",
    subsets := [{ addresses := [{ ip := "10.0.0.1" }],
                  ports := [{ name := "http", port := 80, protocol := "TCP" }] }] }

/-- Stores holding `svcWeb` and its endpoints. -/
def strEx : Stores := { svcs := [svcWeb], eps := [epsWeb], pods := [] }

/-- An in-scope Ingress routing host `example.com`, path `/` to
`svcWeb`. -/
def ingEx : Ingress :=
  { ns := "default", name := "demo", ingressClass := "", backendConfig := [],
    tls := [],
    rules := [{ host := "example.com",
                http := some [{ path := "/", svcName := "web", svcPort := .int 80 }] }],
    status := [] }

/-- An in-scope Ingress with empty host and path `/` (declares the
default host/path). -/
def ingDefaultHostPath (nm : String) : Ingress :=
  { ingEx with
    name := nm,
    rules := [{ host := "",
                http := some [{ path := "/", svcName := "web", svcPort := .int 80 }] }] }

/-- A snapshot with no Ingresses and no Secrets. -/
def stEx : Snapshot := { ings := [], stores := strEx, secrets := [], cms := [] }

/-- A Secret whose certificate bytes do not decode (truncated). -/
def brokenSecret : Secret :=
  { ns := "default", name := "tls",
    data := { cert := some .malformed, key := some .wellFormed } }

/-- A valid TLS Secret. -/
def goodSecret : Secret :=
  { ns := "default", name := "tls",
    data := { cert := some (.wellFormed ["example.com"]), key := some .wellFormed } }

/-- Project the configuration out of a successful resolver run. -/
def okOf (r : Except String IngressConfig) : IngressConfig :=
  match r with
  | .ok c => c
  | .error _ => emptyIngressConfig

/-- The Ingress `ingEx` extended with a TLS section naming Secret
`tls`. -/
def ingTLSEx : Ingress :=
  { ingEx with
    name := "demo-tls",
    tls := [{ secretName := "tls" }] }

/-- A successful resolver output over `ingEx` and `ingTLSEx`. -/
def cEx : IngressConfig :=
  okOf (getUpstreamServers cfgEx strEx [goodSecret] [ingEx, ingTLSEx])

/-- A successful resolver output with no rule declaring the default
host/path. -/
def cNoDefaultRule : IngressConfig :=
  okOf (getUpstreamServers cfgEx strEx [] [ingEx])

/-- A Service whose target port is symbolic (`web`). -/
def svcApi : Service :=
  { ns := "default", name := "api",
    ports := [{ name := "h", port := 80, targetPort := .str "web", protocol := "TCP" }],
    selector := [("app", "api")] }

/-- A selector-matched Pod carrying the named container port `web`. -/
def podApi : Pod :=
  { ns := "default", name := "api-1", labels := [("app", "api")], nodeName := "n1",
    containerPorts := [{ name := "web", containerPort := 8080, protocol := "TCP" }] }

/-- Endpoints for `svcApi`, advertising the numeric port only. -/
def epsApi : Endpoints :=
  { ns := "default", name := "api",
    subsets := [{ addresses := [{ ip := "10.0.0.9" }],
                  ports := [{ name := "web", port := 8080, protocol := "TCP" }] }] }

/-- Identity of this controller's own pod. -/
def selfPodInfo : PodInfo := { podName := "lb-1", podNS := "kube-system" }

/-- This controller's own pod. -/
def selfPod : Pod :=
  { ns := "kube-system", name := "lb-1", labels := [("app", "lb")], nodeName := "node-1",
    containerPorts := [] }

/-- The node hosting `selfPod`, with an external IP. -/
def selfNode : Node :=
  { name := "node-1",
    addresses := [{ type := .externalIP, address := "203.0.113.1" }] }

/-- An Ingress whose status lists three replica addresses. -/
def ingWithStatus : Ingress :=
  { ingEx with
    name := "routed",
    status := [{ ip := "203.0.113.1", hostname := "" },
               { ip := "203.0.113.2", hostname := "" },
               { ip := "203.0.113.3", hostname := "" }] }

/-- The shutdown pass results over the three-replica fixture. -/
def okShutdownResults : List (Ingress × List LoadBalancerIngress) :=
  match removeAddressShutdownPass cfgEx [selfPod] [selfNode] selfPodInfo [ingWithStatus] with
  | .ok r => r
  | .error _ => []

/-- Reference reading of the spec sentence for symbolic target ports:
once the numeric port is resolved from a same-named container port of
one selector-matched pod, the endpoint subsets are cross-matched
against exactly that number. -/
def namedPortServersSpec (eps : List Endpoints) (svc : Service) (n : Int)
    (pbc : PortBackendConfig) : List UpstreamServer :=
  match endpointsOfService eps svc with
  | none => []
  | some ep =>
    (ep.subsets.map (fun ss =>
      ((ss.ports.filter (fun q => q.protocol == "TCP" && q.port == n)).map
        (fun _ => ss.addresses.map (mkUpstreamServer pbc n))).flatten)).flatten

/-- The symbolic service port of `svcApi`. -/
def apiPort : ServicePort :=
  { name := "h", port := 80, targetPort := .str "web", protocol := "TCP" }

/-- The single (Ingress, new status) pair produced by the shutdown
pass over the three-replica fixture. -/
def shutdownPair : Ingress × List LoadBalancerIngress :=
  (ingWithStatus, [{ ip := "203.0.113.2", hostname := "" },
                   { ip := "203.0.113.3", hostname := "" }])

/-! ### Helper lemmas -/

/-- The `retry` flag of `sync` is never set: every branch returns it
still `false`. -/
theorem sync_snd_eq_false (cfg : LBConfig) (st : Snapshot) (reload : ReloadResult) :
    (sync cfg st reload).2 = false := by
  unfold sync
  cases getUpstreamServers cfg st.stores st.secrets st.ings
  · rfl
  · cases getConfigMap st.cms cfg.ngxConfigMap
    · rfl
    · cases reload <;> rfl

/-- Congruence for TLS-section resolution: agreement of two secret
stores on the referenced keys yields identical results. -/
theorem tlsCredsOfEntries_congr (secrets₁ secrets₂ : List Secret) (ns : String) :
    ∀ ts : List IngressTLS,
      (∀ t ∈ ts, secretByKey secrets₁ (nsNameKey ns t.secretName) =
        secretByKey secrets₂ (nsNameKey ns t.secretName)) →
      tlsCredsOfEntries secrets₁ ns ts = tlsCredsOfEntries secrets₂ ns ts := by
  intro ts
  induction ts with
  | nil => intro _; rfl
  | cons t rest ih =>
    intro h
    have ht := h t (List.mem_cons_self t rest)
    have hrest := ih (fun t' ht' => h t' (List.mem_cons_of_mem t ht'))
    unfold tlsCredsOfEntries
    rw [ht, hrest]

/-- Adjacent deduplication of a list sorted by `le` yields a strict
chain, provided `le` together with distinct keys implies `lt`. -/
theorem dedupAdjAux_chain' {α β : Type} (key : α → β) [DecidableEq β]
    (le lt : α → α → Prop) (hlt : ∀ a b, le a b → key a ≠ key b → lt a b) :
    ∀ (l : List α) (last : α), List.Pairwise le (last :: l) →
      List.Chain' lt (last :: dedupAdjAux key last l) := by
  intro l
  induction l with
  | nil => intro last _; simp [dedupAdjAux]
  | cons x xs ih =>
    intro last hp
    rcases List.pairwise_cons.mp hp with ⟨hlast, htail⟩
    rcases List.pairwise_cons.mp htail with ⟨_, hxs⟩
    unfold dedupAdjAux
    by_cases hk : key x = key last
    · rw [if_pos hk]
      exact ih last (List.pairwise_cons.mpr
        ⟨fun b hb => hlast b (List.mem_cons_of_mem x hb), hxs⟩)
    · rw [if_neg hk]
      refine List.chain'_cons.mpr ⟨?_, ih x htail⟩
      exact hlt last x (hlast x (List.mem_cons_self x xs)) (fun he => hk he.symm)

/-- Adjacent deduplication of a `le`-sorted list is a strict chain. -/
theorem dedupAdj_chain' {α β : Type} (key : α → β) [DecidableEq β]
    (le lt : α → α → Prop) (hlt : ∀ a b, le a b → key a ≠ key b → lt a b)
    (l : List α) (hp : List.Pairwise le l) :
    List.Chain' lt (dedupAdj key l) := by
  cases l with
  | nil => simp [dedupAdj]
  | cons x xs => exact dedupAdjAux_chain' key le lt hlt xs x hp

/-- Adjacent deduplication never turns a non-empty list empty. -/
theorem dedupAdj_ne_nil {α β : Type} (key : α → β) [DecidableEq β]
    (l : List α) (h : l ≠ []) : dedupAdj key l ≠ [] := by
  cases l with
  | nil => exact absurd rfl h
  | cons x xs => simp [dedupAdj]

/-- Sorting never turns a non-empty list empty. -/
theorem insertionSort_ne_nil {α : Type} (r : α → α → Prop) [DecidableRel r]
    (l : List α) (h : l ≠ []) : List.insertionSort r l ≠ [] := by
  intro hnil
  apply h
  have := (List.perm_insertionSort r l).length_eq
  rw [hnil] at this
  exact List.length_eq_zero.mp this.symm

/-- `removeDefaultPem` only removes entries. -/
theorem removeDefaultPem_sublist (p : String) :
    ∀ l : List TLSCred, (removeDefaultPem p l).Sublist l := by
  intro l
  induction l with
  | nil => simp [removeDefaultPem]
  | cons c rest ih =>
    unfold removeDefaultPem
    by_cases h : c.key.path == p
    · rw [if_pos h]
      exact List.sublist_cons_self c rest
    · rw [if_neg h]
      exact ih.cons₂ c

/-- In an identity-distinct credential list, removing the first entry
with the given identity leaves no entry with that identity. -/
theorem removeDefaultPem_not_mem (p : String) :
    ∀ l : List TLSCred,
      List.Pairwise (fun a b : TLSCred => a.key.path ≠ b.key.path) l →
      ∀ c ∈ removeDefaultPem p l, c.key.path ≠ p := by
  intro l
  induction l with
  | nil => intro _ c hc; simp [removeDefaultPem] at hc
  | cons x xs ih =>
    intro hp c hc
    rcases List.pairwise_cons.mp hp with ⟨hx, hxs⟩
    unfold removeDefaultPem at hc
    by_cases h : x.key.path == p
    · rw [if_pos h] at hc
      have hxp : x.key.path = p := by simpa using h
      intro hcp
      exact hx c hc (hxp.trans hcp.symm)
    · rw [if_neg h] at hc
      rcases List.mem_cons.mp hc with rfl | hc'
      · simpa using h
      · exact ih hxs c hc'

/-- Canonical shape of a successful Config Resolver pass. -/
theorem getUpstreamServers_ok_eq (cfg : LBConfig) (str : Stores) (secrets : List Secret)
    (ings : List Ingress) (c : IngressConfig)
    (h : getUpstreamServers cfg str secrets ings = .ok c) :
    ∃ tls0 defCred0, defaultTLSStep cfg secrets = .ok (tls0, defCred0) ∧
      c = { tls := (finalizeTLS tls0 defCred0 (collectPems cfg str secrets ings)).1,
            defaultTLSCred := (finalizeTLS tls0 defCred0 (collectPems cfg str secrets ings)).2.1,
            subTLSCred := (finalizeTLS tls0 defCred0 (collectPems cfg str secrets ings)).2.2,
            upstreams := (List.insertionSort upsLe
              (withDefault cfg str (ruleUpstreams cfg str secrets ings))).map fixupBackends } := by
  cases h' : defaultTLSStep cfg secrets with
  | error e => rw [getUpstreamServers, h'] at h; exact absurd h (by simp)
  | ok v =>
    obtain ⟨tls0, defCred0⟩ := v
    refine ⟨tls0, defCred0, rfl, ?_⟩
    rw [getUpstreamServers, h'] at h
    simp only [Except.ok.injEq] at h
    exact h.symm

/-! ### Claim C3 (code bug): failed sync is never re-enqueued -/

/-- C3: the spec says a failed `sync` re-enqueues its key.  The code
initializes `retry := false`, never reassigns it, and hands it to the
deferred `retryOrForget`, so no run of `sync` — failed or not — ever
re-enqueues: the flag is constantly `false`, a worker step always
leaves the queue unchanged, and at a concrete failing input (default
TLS Secret configured but absent) the handler errors while the key is
still not re-added. -/
theorem sync_error_key_not_requeued :
    (∀ (cfg : LBConfig) (st : Snapshot) (reload : ReloadResult),
      (sync cfg st reload).2 = false) ∧
    (∀ (cfg : LBConfig) (st : Snapshot) (reload : ReloadResult)
      (queue : List String) (key : String),
      workerStep cfg st reload queue key = queue) ∧
    ((sync cfgTLSEx stEx .reloaded).1.isOk = false ∧
      workerStep cfgTLSEx stEx .reloaded [] syncKey = []) := by
  refine ⟨sync_snd_eq_false, ?_, by decide, by decide⟩
  intro cfg st reload queue key
  rw [workerStep, sync_snd_eq_false]
  rfl

/-! ### Claim C4: determinism of the Config Resolver -/

/-- C4: two runs of `getUpstreamServers` over identical snapshots
(same rules, services, endpoints, secrets, pods) produce equal
configuration models. -/
theorem getUpstreamServers_deterministic (cfg : LBConfig) (str₁ str₂ : Stores)
    (secrets₁ secrets₂ : List Secret) (ings₁ ings₂ : List Ingress)
    (hsvc : str₁.svcs = str₂.svcs) (hep : str₁.eps = str₂.eps)
    (hpod : str₁.pods = str₂.pods) (hsec : secrets₁ = secrets₂)
    (hing : ings₁ = ings₂) :
    getUpstreamServers cfg str₁ secrets₁ ings₁ = getUpstreamServers cfg str₂ secrets₂ ings₂ := by
  cases str₁
  cases str₂
  simp only at hsvc hep hpod
  subst hsvc hep hpod hsec hing
  rfl

/-- Witness for C4 at a concrete snapshot. -/
theorem getUpstreamServers_deterministic_witness :
    getUpstreamServers cfgEx strEx [goodSecret] [ingEx] =
      getUpstreamServers cfgEx strEx [goodSecret] [ingEx] :=
  getUpstreamServers_deterministic cfgEx strEx strEx [goodSecret] [goodSecret]
    [ingEx] [ingEx] rfl rfl rfl rfl rfl

/-! ### Claim C10: no-op update notifications never enqueue -/

/-- C10: for Endpoints, Secret, ConfigMap and Pod update notifications,
deeply equal old and new objects make the handler return without
enqueueing anything. -/
theorem noop_update_never_enqueues (cfg : LBConfig) (str : Stores) (ings : List Ingress)
    (queue : List String) (epOld epCur : Endpoints) (sOld sCur : Secret)
    (cmOld cmCur : ConfigMap) (podOld podCur : Pod)
    (hep : epOld = epCur) (hs : sOld = sCur) (hcm : cmOld = cmCur)
    (hpod : podOld = podCur) :
    updateEndpointsNotification cfg ings queue epOld epCur = queue ∧
    updateSecretNotification cfg ings queue sOld sCur = queue ∧
    updateConfigMapNotification cfg queue cmOld cmCur = queue ∧
    updatePodNotification cfg str ings queue podOld podCur = queue := by
  subst hep hs hcm hpod
  refine ⟨?_, ?_, ?_, ?_⟩ <;>
    simp [updateEndpointsNotification, updateSecretNotification,
      updateConfigMapNotification, updatePodNotification]

/-- Witness for C10 at concrete objects. -/
theorem noop_update_never_enqueues_witness :
    updateEndpointsNotification cfgEx [ingEx] ["pending"] epsWeb epsWeb = ["pending"] ∧
    updateSecretNotification cfgEx [ingEx] ["pending"] goodSecret goodSecret = ["pending"] ∧
    updateConfigMapNotification cfgEx ["pending"]
      { ns := "kube-system", name := "cm", data := [] }
      { ns := "kube-system", name := "cm", data := [] } = ["pending"] ∧
    updatePodNotification cfgEx strEx [ingEx] ["pending"]
      { ns := "default", name := "p", labels := [], nodeName := "n", containerPorts := [] }
      { ns := "default", name := "p", labels := [], nodeName := "n", containerPorts := [] } = ["pending"] :=
  noop_update_never_enqueues cfgEx strEx [ingEx] ["pending"] epsWeb epsWeb
    goodSecret goodSecret
    { ns := "kube-system", name := "cm", data := [] }
    { ns := "kube-system", name := "cm", data := [] }
    { ns := "default", name := "p", labels := [], nodeName := "n", containerPorts := [] }
    { ns := "default", name := "p", labels := [], nodeName := "n", containerPorts := [] }
    rfl rfl rfl rfl

/-! ### Claim C2 (corrected): broken Secrets are isolated, except the
default TLS Secret -/

/-- C2 counterexample: the claim as stated fails when the broken Secret
is the configured default TLS Secret — here it is absent from the
store and `getUpstreamServers` returns an error instead of a model. -/
theorem secret_failure_default_tls_cex :
    (getUpstreamServers cfgTLSEx strEx [] []).isOk = false := by decide

/-- C2 (amended): when the configured default TLS Secret resolves (or
none is configured), `getUpstreamServers` always returns a model
without error; and an Ingress's contribution depends on the secret
store only through the Secrets its own TLS section references, so a
Secret that is absent, malformed or invalid affects only the
Ingresses referencing it. -/
theorem secret_failure_isolated :
    (∀ (cfg : LBConfig) (str : Stores) (secrets : List Secret) (ings : List Ingress),
      (cfg.defaultTLSSecret = "" ∨ (getTLSCredFromSecret secrets cfg.defaultTLSSecret).isOk = true) →
      (getUpstreamServers cfg str secrets ings).isOk = true) ∧
    (∀ (cfg : LBConfig) (str : Stores) (secrets₁ secrets₂ : List Secret) (ing : Ingress),
      (∀ t ∈ ing.tls, secretByKey secrets₁ (nsNameKey ing.ns t.secretName) =
        secretByKey secrets₂ (nsNameKey ing.ns t.secretName)) →
      ingressContribution cfg str secrets₁ ing = ingressContribution cfg str secrets₂ ing) := by
  constructor
  · intro cfg str secrets ings h
    cases hd : defaultTLSStep cfg secrets with
    | ok v =>
      obtain ⟨a, b⟩ := v
      rw [getUpstreamServers, hd]
      rfl
    | error e =>
      exfalso
      rw [defaultTLSStep] at hd
      by_cases hc : cfg.defaultTLSSecret == ""
      · rw [if_pos hc] at hd
        exact absurd hd (by simp)
      · rw [if_neg hc] at hd
        rcases h with h | h
        · exact hc (by simp [h])
        · cases hg : getTLSCredFromSecret secrets cfg.defaultTLSSecret with
          | ok cred => rw [hg] at hd; exact absurd hd (by simp)
          | error e' => rw [hg] at h; exact absurd h (by simp [Except.isOk, Except.toBool])
  · intro cfg str secrets₁ secrets₂ ing h
    unfold ingressContribution getTLSCredFromIngress
    rw [tlsCredsOfEntries_congr secrets₁ secrets₂ ing.ns ing.tls h]

/-- Witness for C2: without a default TLS Secret the pass succeeds, and
two stores differing in an unreferenced Secret (broken in one, valid in
the other) yield the same contribution for an Ingress without a TLS
section. -/
theorem secret_failure_isolated_witness :
    (getUpstreamServers cfgEx strEx [brokenSecret] [ingEx]).isOk = true ∧
    ingressContribution cfgEx strEx [brokenSecret] ingEx =
      ingressContribution cfgEx strEx [goodSecret] ingEx :=
  ⟨secret_failure_isolated.1 cfgEx strEx [brokenSecret] [ingEx] (Or.inl rfl),
   secret_failure_isolated.2 cfgEx strEx [brokenSecret] [goodSecret] ingEx (by decide)⟩

/-! ### Claim C9: shutdown removes exactly the controller's own address -/

/-- C9: during the shutdown pass, each in-scope Ingress's status list
loses exactly the entries carrying this replica's own address: the new
list is a sublist of the old (order untouched), contains no entry with
the own address, and keeps every other entry with its multiplicity. -/
theorem shutdown_removes_own_address_only (cfg : LBConfig) (pods : List Pod)
    (nodes : List Node) (pi : PodInfo) (ings : List Ingress) (pod : Pod)
    (addr : String) (results : List (Ingress × List LoadBalancerIngress))
    (hpod : getThisPod pods pi = .ok pod)
    (haddr : getPodAddress cfg.allowInternalIP nodes pod = .ok addr)
    (hrun : removeAddressShutdownPass cfg pods nodes pi ings = .ok results) :
    ∀ p ∈ results, p.2.Sublist p.1.status ∧
      (∀ e ∈ p.2, lbIngressMatches e addr = false) ∧
      (∀ e : LoadBalancerIngress, lbIngressMatches e addr = false →
        List.count e p.2 = List.count e p.1.status) := by
  intro p hp
  rw [removeAddressShutdownPass, hpod] at hrun
  dsimp only at hrun
  rw [haddr] at hrun
  simp only [Except.ok.injEq] at hrun
  subst hrun
  rcases List.mem_map.mp hp with ⟨ing, _, rfl⟩
  simp only
  unfold shutdownIngressStatus
  by_cases he : ing.status.isEmpty
  · rw [if_pos he]
    have hnil : ing.status = [] := List.isEmpty_iff.mp he
    refine ⟨List.Sublist.refl _, ?_, ?_⟩
    · intro e hee
      rw [hnil] at hee
      exact absurd hee (List.not_mem_nil e)
    · intro e _
      rfl
  · rw [if_neg he]
    refine ⟨List.filter_sublist _, ?_, ?_⟩
    · intro e hee
      have := (List.mem_filter.mp hee).2
      simpa using this
    · intro e hme
      exact List.count_filter (by simp [hme])

/-- Witness for C9: three replicas registered, the shutting-down
replica's address `203.0.113.1` is removed, the other two survive. -/
theorem shutdown_removes_own_address_only_witness :
    shutdownPair.2.Sublist shutdownPair.1.status ∧
    (∀ e ∈ shutdownPair.2, lbIngressMatches e "203.0.113.1" = false) ∧
    (∀ e : LoadBalancerIngress, lbIngressMatches e "203.0.113.1" = false →
      List.count e shutdownPair.2 = List.count e shutdownPair.1.status) :=
  shutdown_removes_own_address_only cfgEx [selfPod] [selfNode] selfPodInfo
    [ingWithStatus] selfPod "203.0.113.1" okShutdownResults rfl rfl rfl
    shutdownPair (by decide)

/-! ### Backend non-emptiness helpers -/

/-- A path that survives `pathUpstream` carries at least one backend. -/
theorem pathUpstream_backends_ne_nil (cfg : LBConfig) (str : Stores) (ing : Ingress)
    (requireTLS : Bool) (host : String) (p : HTTPPath) (u : Upstream)
    (h : pathUpstream cfg str ing requireTLS host p = some u) : u.backends ≠ [] := by
  unfold pathUpstream at h
  cases hn : normalizePath p.path with
  | none => rw [hn] at h; exact absurd h (by simp)
  | some np =>
    rw [hn] at h
    cases hs : svcByKey str.svcs (nsNameKey ing.ns p.svcName) with
    | none => rw [hs] at h; exact absurd h (by simp)
    | some svc =>
      rw [hs] at h
      dsimp only at h
      by_cases hb : (scanPorts str.eps str.pods svc
          ((ing.backendConfig.lookup p.svcName).getD []) (iosToString p.svcPort) svc.ports).isEmpty
      · rw [if_pos hb] at h
        exact absurd h (by simp)
      · rw [if_neg hb] at h
        simp only [Option.some.injEq] at h
        subst h
        simpa [List.isEmpty_iff] using hb

/-- Every rule-contributed upstream carries at least one backend. -/
theorem mem_ruleUpstreams_backends (cfg : LBConfig) (str : Stores) (secrets : List Secret)
    (ings : List Ingress) (u : Upstream)
    (h : u ∈ ruleUpstreams cfg str secrets ings) : u.backends ≠ [] := by
  unfold ruleUpstreams at h
  rcases List.mem_flatten.mp h with ⟨l, hl, hu⟩
  rcases List.mem_map.mp hl with ⟨ing, _, rfl⟩
  unfold ingressContribution at hu
  by_cases hv : validateIngressClass cfg ing
  · rw [if_pos hv] at hu
    cases hg : getTLSCredFromIngress secrets ing with
    | error e => rw [hg] at hu; exact absurd hu (by simp)
    | ok pems =>
      rw [hg] at hu
      dsimp only at hu
      unfold ingUpstreams at hu
      rcases List.mem_flatten.mp hu with ⟨l', hl', hu'⟩
      rcases List.mem_map.mp hl' with ⟨rule, _, rfl⟩
      unfold ruleUpstreamList at hu'
      cases hh : rule.http with
      | none => rw [hh] at hu'; exact absurd hu' (by simp)
      | some paths =>
        rw [hh] at hu'
        rcases List.mem_filterMap.mp hu' with ⟨p, _, hp⟩
        exact pathUpstream_backends_ne_nil cfg str ing _ rule.host p u hp
  · rw [if_neg hv] at hu
    exact absurd hu (by simp)

/-- The synthesized default upstream always has a backend. -/
theorem defaultBackends_ne_nil (cfg : LBConfig) (str : Stores) :
    defaultBackends cfg str ≠ [] := by
  unfold defaultBackends
  split
  · simp
  · split
    · simp
    · dsimp only
      split
      · simp
      · next hb => simpa [List.isEmpty_iff] using hb

/-- Membership in `withDefault`. -/
theorem withDefault_mem (cfg : LBConfig) (str : Stores) (ups : List Upstream) (u : Upstream)
    (h : u ∈ withDefault cfg str ups) : u ∈ ups ∨ u = getDefaultUpstream cfg str := by
  unfold withDefault at h
  by_cases ha : ups.any isDefaultUpstream
  · rw [if_pos ha] at h
    exact Or.inl h
  · rw [if_neg ha] at h
    rcases List.mem_append.mp h with h' | h'
    · exact Or.inl h'
    · exact Or.inr (by simpa using h')

/-- Backend fixup preserves non-emptiness. -/
theorem fixupBackends_ne_nil (u : Upstream) (h : u.backends ≠ []) :
    (fixupBackends u).backends ≠ [] := by
  unfold fixupBackends dedupBackends
  exact dedupAdj_ne_nil serverKey _ (insertionSort_ne_nil serverLe u.backends h)

/-! ### Claim C6: no emitted upstream has an empty backend list -/

/-- C6: in every emitted model each upstream carries at least one
backend: unresolvable paths are skipped before an upstream is created,
and the synthesized default upstream falls back to the static
placeholder, so it too is never empty. -/
theorem upstream_backends_nonempty (cfg : LBConfig) (str : Stores) (secrets : List Secret)
    (ings : List Ingress) (c : IngressConfig)
    (h : getUpstreamServers cfg str secrets ings = .ok c) :
    (∀ u ∈ c.upstreams, u.backends ≠ []) ∧ (getDefaultUpstream cfg str).backends ≠ [] := by
  obtain ⟨tls0, defCred0, hd, rfl⟩ := getUpstreamServers_ok_eq cfg str secrets ings c h
  refine ⟨?_, defaultBackends_ne_nil cfg str⟩
  intro u hu
  simp only at hu
  rcases List.mem_map.mp hu with ⟨v, hv, rfl⟩
  have hv' : v ∈ withDefault cfg str (ruleUpstreams cfg str secrets ings) :=
    (List.mem_insertionSort upsLe).mp hv
  apply fixupBackends_ne_nil
  rcases withDefault_mem cfg str _ v hv' with h' | rfl
  · exact mem_ruleUpstreams_backends cfg str secrets ings v h'
  · exact defaultBackends_ne_nil cfg str

/-- Witness for C6 at a concrete model. -/
theorem upstream_backends_nonempty_witness :
    (∀ u ∈ cEx.upstreams, u.backends ≠ []) ∧
      (getDefaultUpstream cfgEx strEx).backends ≠ [] :=
  upstream_backends_nonempty cfgEx strEx [goodSecret] [ingEx, ingTLSEx] cEx rfl

/-- Strict backend order implies the non-strict one. -/
theorem serverLe_of_serverLt {a b : UpstreamServer} (h : serverLt a b) : serverLe a b := by
  rcases h with h | ⟨he, hp⟩
  · exact Or.inl h
  · exact Or.inr ⟨he, strLe_of_strLt hp⟩

/-! ### Claim C5: sorted, adjacent-deduplicated output lists -/

/-- C5: in every emitted model the upstream list is sorted by name, and
each upstream's backend list is sorted by (address, port) with no two
adjacent entries sharing (address, port). -/
theorem upstream_lists_sorted (cfg : LBConfig) (str : Stores) (secrets : List Secret)
    (ings : List Ingress) (c : IngressConfig)
    (h : getUpstreamServers cfg str secrets ings = .ok c) :
    List.Pairwise upsLe c.upstreams ∧
    ∀ u ∈ c.upstreams, List.Pairwise serverLe u.backends ∧
      List.Chain' (fun a b => serverKey a ≠ serverKey b) u.backends := by
  obtain ⟨tls0, defCred0, hd, rfl⟩ := getUpstreamServers_ok_eq cfg str secrets ings c h
  constructor
  · have hs : List.Pairwise upsLe
        (List.insertionSort upsLe (withDefault cfg str (ruleUpstreams cfg str secrets ings))) :=
      List.sorted_insertionSort upsLe _
    exact hs.map fixupBackends (fun a b hab => hab)
  · intro u hu
    simp only at hu
    rcases List.mem_map.mp hu with ⟨v, _, rfl⟩
    have hsorted : List.Pairwise serverLe (List.insertionSort serverLe v.backends) :=
      List.sorted_insertionSort serverLe v.backends
    have hchain : List.Chain' serverLt (dedupBackends (List.insertionSort serverLe v.backends)) :=
      dedupAdj_chain' serverKey serverLe serverLt
        (fun _ _ => serverLt_of_serverLe_of_key_ne) _ hsorted
    refine ⟨?_, ?_⟩
    · exact (List.chain'_iff_pairwise.mp hchain).imp serverLe_of_serverLt
    · exact hchain.imp (fun a b hab => serverKey_ne_of_serverLt hab)

/-- Witness for C5 at a concrete model. -/
theorem upstream_lists_sorted_witness :
    List.Pairwise upsLe cEx.upstreams ∧
    ∀ u ∈ cEx.upstreams, List.Pairwise serverLe u.backends ∧
      List.Chain' (fun a b => serverKey a ≠ serverKey b) u.backends :=
  upstream_lists_sorted cfgEx strEx [goodSecret] [ingEx, ingTLSEx] cEx rfl

/-- The sorted, deduplicated credential list has pairwise distinct
identities. -/
theorem removeDuplicatePems_sorted_pairwise (pems : List TLSCred) :
    List.Pairwise (fun a b : TLSCred => a.key.path ≠ b.key.path)
      (removeDuplicatePems (List.insertionSort pemLe pems)) := by
  have hsorted : List.Pairwise pemLe (List.insertionSort pemLe pems) :=
    List.sorted_insertionSort pemLe pems
  have hchain : List.Chain' pemLt (dedupAdj (fun c => c.key.path) (List.insertionSort pemLe pems)) :=
    dedupAdj_chain' (fun c => c.key.path) pemLe pemLt
      (fun (a b : TLSCred) (hle : pemLe a b) (hne : a.key.path ≠ b.key.path) =>
        strLt_of_strLe_of_ne hle hne) _ hsorted
  rw [removeDuplicatePems]
  exact (List.chain'_iff_pairwise.mp hchain).imp (fun h => strLt_ne h)

/-! ### Claim C8: TLS credential identities are unique; the default is
excluded from the sub list -/

/-- C8: in every emitted model no two credentials among the default and
sub-credential lists share an identity (the key path, derived from the
Secret's namespace and name, so identical bytes under different names
stay distinct), and the default credential never appears in the
sub-credential list. -/
theorem tls_cred_identity_unique (cfg : LBConfig) (str : Stores) (secrets : List Secret)
    (ings : List Ingress) (c : IngressConfig)
    (h : getUpstreamServers cfg str secrets ings = .ok c) :
    List.Pairwise (fun a b : TLSCred => a.key.path ≠ b.key.path)
      (c.defaultTLSCred.toList ++ c.subTLSCred) ∧
    ∀ d, c.defaultTLSCred = some d → ∀ p ∈ c.subTLSCred, p.key.path ≠ d.key.path := by
  obtain ⟨tls0, defCred0, hd, rfl⟩ := getUpstreamServers_ok_eq cfg str secrets ings c h
  have hpair := removeDuplicatePems_sorted_pairwise (collectPems cfg str secrets ings)
  cases defCred0 with
  | some cred =>
    simp only [finalizeTLS]
    constructor
    · refine List.pairwise_cons.mpr ⟨?_, ?_⟩
      · intro x hx
        exact (removeDefaultPem_not_mem cred.key.path _ hpair x hx).symm
      · exact hpair.sublist (removeDefaultPem_sublist cred.key.path _)
    · intro d hd' p hp
      simp only [Option.some.injEq] at hd'
      subst hd'
      exact removeDefaultPem_not_mem cred.key.path _ hpair p hp
  | none =>
    simp only [finalizeTLS]
    cases hp' : removeDuplicatePems
        (List.insertionSort pemLe (collectPems cfg str secrets ings)) with
    | nil =>
      constructor
      · simp
      · intro d hd' p hp
        simp at hd'
    | cons q rest =>
      rw [hp'] at hpair
      constructor
      · simpa using hpair
      · intro d hd' p hp
        simp only [Option.some.injEq] at hd'
        subst hd'
        exact ((List.pairwise_cons.mp hpair).1 p hp).symm

/-- Witness for C8 at a concrete model with a rule-referenced TLS
Secret. -/
theorem tls_cred_identity_unique_witness :
    List.Pairwise (fun a b : TLSCred => a.key.path ≠ b.key.path)
      (cEx.defaultTLSCred.toList ++ cEx.subTLSCred) ∧
    ∀ d, cEx.defaultTLSCred = some d → ∀ p ∈ cEx.subTLSCred, p.key.path ≠ d.key.path :=
  tls_cred_identity_unique cfgEx strEx [goodSecret] [ingEx, ingTLSEx] cEx rfl

/-! ### Claim C1 (corrected): the default host/path upstream -/

/-- C1 counterexample: two in-scope rules both declaring host `""` and
path `/` yield two upstreams with that host/path, so "exactly one"
fails (and with no such rule, the synthesized default carries path `""`
rather than `/`). -/
theorem default_upstream_exactly_one_cex :
    ((getUpstreamServers cfgEx strEx []
        [ingDefaultHostPath "a", ingDefaultHostPath "b"]).toOption.map
      (fun c => c.upstreams.countP (fun u => u.host == "" && u.path == "/"))) = some 2 := by
  decide

/-- C1 (amended): every emitted model contains at least one upstream
with host `""` and path `""` or `/`; and when no class-passing rule
contributes such an upstream, the one synthesized by
`getDefaultUpstream` from the configured default backend service (with
its backends sorted and deduplicated) is in the list. -/
theorem default_upstream_present (cfg : LBConfig) (str : Stores) (secrets : List Secret)
    (ings : List Ingress) (c : IngressConfig)
    (h : getUpstreamServers cfg str secrets ings = .ok c) :
    (∃ u ∈ c.upstreams, u.host = "" ∧ (u.path = "" ∨ u.path = "/")) ∧
    ((∀ u ∈ ruleUpstreams cfg str secrets ings, ¬(u.host = "" ∧ (u.path = "" ∨ u.path = "/"))) →
      fixupBackends (getDefaultUpstream cfg str) ∈ c.upstreams) := by
  obtain ⟨tls0, defCred0, hd, rfl⟩ := getUpstreamServers_ok_eq cfg str secrets ings c h
  constructor
  · by_cases ha : (ruleUpstreams cfg str secrets ings).any isDefaultUpstream
    · rcases List.any_eq_true.mp ha with ⟨u, hu, hdu⟩
      have hmem : u ∈ withDefault cfg str (ruleUpstreams cfg str secrets ings) := by
        rw [withDefault, if_pos ha]; exact hu
      refine ⟨fixupBackends u,
        List.mem_map_of_mem fixupBackends ((List.mem_insertionSort upsLe).mpr hmem), ?_⟩
      have hprop : u.host = "" ∧ (u.path = "" ∨ u.path = "/") := by
        simpa [isDefaultUpstream] using hdu
      exact hprop
    · have hmem : getDefaultUpstream cfg str ∈
          withDefault cfg str (ruleUpstreams cfg str secrets ings) := by
        rw [withDefault, if_neg ha]
        exact List.mem_append_right _ (List.mem_singleton_self _)
      refine ⟨fixupBackends (getDefaultUpstream cfg str),
        List.mem_map_of_mem fixupBackends ((List.mem_insertionSort upsLe).mpr hmem), ?_⟩
      exact ⟨rfl, Or.inl rfl⟩
  · intro hnone
    have ha : (ruleUpstreams cfg str secrets ings).any isDefaultUpstream = false := by
      rw [List.any_eq_false]
      intro u hu
      have := hnone u hu
      simpa [isDefaultUpstream] using this
    have hmem : getDefaultUpstream cfg str ∈
        withDefault cfg str (ruleUpstreams cfg str secrets ings) := by
      rw [withDefault, if_neg (by simp [ha])]
      exact List.mem_append_right _ (List.mem_singleton_self _)
    exact List.mem_map_of_mem fixupBackends ((List.mem_insertionSort upsLe).mpr hmem)

/-- Witness for C1 at a model where no rule declares the default
host/path. -/
theorem default_upstream_present_witness :
    (∃ u ∈ cNoDefaultRule.upstreams, u.host = "" ∧ (u.path = "" ∨ u.path = "/")) ∧
    fixupBackends (getDefaultUpstream cfgEx strEx) ∈ cNoDefaultRule.upstreams :=
  ⟨(default_upstream_present cfgEx strEx [] [ingEx] cNoDefaultRule rfl).1,
   (default_upstream_present cfgEx strEx [] [ingEx] cNoDefaultRule rfl).2 (by decide)⟩

/-- Per-subset form of the symbolic-target-port resolution: with the
named port resolved to `n` through the pod, the port loop emits the
full address list once per endpoint port matching `n` on protocol
`TCP`. -/
theorem subsetServers_named (pods : List Pod) (svc : Service) (sp : ServicePort)
    (pbc : PortBackendConfig) (addrs : List EndpointAddress) (sv : String) (n : Int)
    (hsp : sp.targetPort = .str sv) (hsv : sv ≠ "") (hatoi : atoi sv = none)
    (hnp : getNamedPortFromPod pods svc sp = .ok n) (hn : n ≠ 0) :
    ∀ ports : List EndpointPort,
      subsetServers pods svc sp "TCP" pbc addrs ports =
        ((ports.filter (fun q => q.protocol == "TCP" && q.port == n)).map
          (fun _ => addrs.map (mkUpstreamServer pbc n))).flatten := by
  have hepp : ∀ q : EndpointPort,
      epPortTarget pods svc sp q = .target (if q.port == n then n else 0) := by
    intro q
    unfold epPortTarget
    rw [hsp]
    dsimp only
    rw [if_neg (by simp [hsv]), hatoi, hnp]
  intro ports
  induction ports with
  | nil => rfl
  | cons q rest ih =>
    unfold subsetServers
    rw [hepp q]
    by_cases hq : q.protocol == "TCP"
    · rw [if_pos hq]
      by_cases hqp : q.port == n
      · rw [if_pos hqp]
        dsimp only
        rw [if_neg (by simp [hn])]
        simp [List.filter_cons, hq, hqp, ih]
      · rw [if_neg hqp]
        dsimp only
        simp [List.filter_cons, hq, hqp, ih]
    · rw [if_neg hq]
      simp [List.filter_cons, hq, ih]

/-! ### Claim C7: service-port matching and named-port fallback -/

/-- C7: the port loop takes the first declared service port whose
numeric port, string target-port, or name equals the backend port
reference (first match in declared order wins); and for a symbolic
target port that is not a number, the numeric port resolved from a
same-named container port of the first selector-matched pod is what
the endpoint subsets are matched against. -/
theorem service_port_resolution :
    (∀ (eps : List Endpoints) (pods : List Pod) (svc : Service)
      (svcBcfg : List (String × PortBackendConfig)) (bp : String)
      (ports : List ServicePort),
      scanPorts eps pods svc svcBcfg bp ports =
        match ports.find? (portMatches bp) with
        | none => []
        | some p => getEndpoints eps pods svc p "TCP" (pbcFor svcBcfg bp)) ∧
    (∀ (eps : List Endpoints) (pods : List Pod) (svc : Service) (sp : ServicePort)
      (pbc : PortBackendConfig) (sv : String) (n : Int),
      sp.targetPort = .str sv → sv ≠ "" → atoi sv = none →
      getNamedPortFromPod pods svc sp = .ok n → n ≠ 0 →
      getEndpoints eps pods svc sp "TCP" pbc = namedPortServersSpec eps svc n pbc) := by
  constructor
  · intro eps pods svc svcBcfg bp ports
    induction ports with
    | nil => rfl
    | cons p rest ih =>
      unfold scanPorts
      rw [List.find?_cons]
      by_cases hm : portMatches bp p
      · rw [if_pos hm, hm]
      · rw [if_neg hm, ih]
        have : portMatches bp p = false := by simpa using hm
        rw [this]
  · intro eps pods svc sp pbc sv n hsp hsv hatoi hnp hn
    unfold getEndpoints namedPortServersSpec
    cases endpointsOfService eps svc with
    | none => rfl
    | some ep =>
      dsimp only
      refine congrArg List.flatten (List.map_congr_left ?_)
      intro ss _
      exact subsetServers_named pods svc sp pbc ss.addresses sv n hsp hsv hatoi hnp hn ss.ports

/-- Witness for C7: a numeric match on `svcWeb`, and the named-port
fallback resolving `web` to 8080 through `podApi`. -/
theorem service_port_resolution_witness :
    (scanPorts [epsWeb] [] svcWeb [] "80" svcWeb.ports =
      match svcWeb.ports.find? (portMatches "80") with
      | none => []
      | some p => getEndpoints [epsWeb] [] svcWeb p "TCP" (pbcFor [] "80")) ∧
    getEndpoints [epsApi] [podApi] svcApi apiPort "TCP" defaultPortBackendConfig =
      namedPortServersSpec [epsApi] svcApi 8080 defaultPortBackendConfig :=
  ⟨service_port_resolution.1 [epsWeb] [] svcWeb [] "80" svcWeb.ports,
   service_port_resolution.2 [epsApi] [podApi] svcApi apiPort defaultPortBackendConfig
     "web" 8080 rfl (by decide) rfl rfl (by decide)⟩

end NghttpxLB
